import Mathlib

/-!
# Verification of the statistical cores of `clt-demo.js` and `bivariate-demo.js`

This file gives a shallow embedding, over exact arithmetic (`ℚ` for grid
construction, `ℝ` for densities and moments), of the numerical cores of the
two visualization modules, and proves properties of them.

JavaScript exceptions are modelled by `Option` (`none` = the call throws);
`Math.random()` is modelled by an explicit stream of uniform draws, so a
sampler is a function of the uniform value it consumes.
-/

open MeasureTheory intervalIntegral Real Set

namespace Bivariate

/-- The unnormalized log-density `f(x, y) = -10 * (y - x^2)^2 - y^2`. -/
def f (x y : ℝ) : ℝ := -10 * (y - x ^ 2) ^ 2 - y ^ 2

/-- Number of elements produced by `d3.range(start, stop, step)`:
`max(0, ceil((stop - start) / step))`. -/
def d3rangeLen (start stop step : ℚ) : ℕ := (Int.ceil ((stop - start) / step)).toNat

/-- `d3.range(start, stop, step)` : the list `start + i * step` for
`0 ≤ i < ceil((stop - start) / step)`. -/
def d3range (start stop step : ℚ) : List ℚ :=
  (List.range (d3rangeLen start stop step)).map (fun i : ℕ => start + (i : ℚ) * step)

/-- `xgrid = d3.range(-2, 2.05, 0.05)`. -/
def xgrid : List ℚ := d3range (-2) (41/20) (1/20)

/-- `ygrid = d3.range(-2, 4.05, 0.05)`. -/
def ygrid : List ℚ := d3range (-2) (81/20) (1/20)

/-- `dx = xgrid[1] - xgrid[0]`. -/
def dx : ℚ := xgrid.getD 1 0 - xgrid.getD 0 0

/-- `dy = ygrid[1] - ygrid[0]`. -/
def dy : ℚ := ygrid.getD 1 0 - ygrid.getD 0 0

/-- The joint density matrix
`Z = ygrid.slice().reverse().map(y => xgrid.map(x => Math.exp(f(x, y))))`:
rows are ordered by descending `y`. -/
noncomputable def Z : List (List ℝ) :=
  ygrid.reverse.map (fun y : ℚ => xgrid.map (fun x : ℚ => Real.exp (f (x : ℝ) (y : ℝ))))

/-- `marginal_x[i] = (Σ_{j < ygrid.length} Z[j][i]) * dy` (the `x` grid value at
index `i` is not used by the body, so the map is taken over the index range). -/
noncomputable def marginal_x : List ℝ :=
  (List.range xgrid.length).map (fun i =>
    (∑ j in Finset.range ygrid.length, (Z.getD j []).getD i 0) * (dy : ℝ))

/-- `marginal_y[j] = (Σ_{i < xgrid.length} Z[ygrid.length - 1 - j][i]) * dx`,
with the row-index inversion compensating for `Z`'s descending-`y` row order. -/
noncomputable def marginal_y : List ℝ :=
  (List.range ygrid.length).map (fun j =>
    (∑ i in Finset.range xgrid.length,
      (Z.getD (ygrid.length - 1 - j) []).getD i 0) * (dx : ℝ))

/-- `conditional_x_given_y = xgrid.map(x => Math.exp(f(x, y_value)))`. -/
noncomputable def conditional_x_given_y (y0 : ℝ) : List ℝ :=
  xgrid.map (fun x : ℚ => Real.exp (f (x : ℝ) y0))

/-- `sum_x = conditional_x_given_y.reduce((a, b) => a + b, 0) * dx`. -/
noncomputable def sum_x (y0 : ℝ) : ℝ := (conditional_x_given_y y0).sum * (dx : ℝ)

/-- `normalized_x_given_y = conditional_x_given_y.map(v => v / sum_x)`. -/
noncomputable def x_given_y (y0 : ℝ) : List ℝ :=
  (conditional_x_given_y y0).map (fun v => v / sum_x y0)

/-- `conditional_y_given_x = ygrid.map(y => Math.exp(f(x_value, y)))`. -/
noncomputable def conditional_y_given_x (x0 : ℝ) : List ℝ :=
  ygrid.map (fun y : ℚ => Real.exp (f x0 (y : ℝ)))

/-- `sum_y = conditional_y_given_x.reduce((a, b) => a + b, 0) * dy`. -/
noncomputable def sum_y (x0 : ℝ) : ℝ := (conditional_y_given_x x0).sum * (dy : ℝ)

/-- `normalized_y_given_x = conditional_y_given_x.map(v => v / sum_y)`. -/
noncomputable def y_given_x (x0 : ℝ) : List ℝ :=
  (conditional_y_given_x x0).map (fun v => v / sum_y x0)

/-! ### Grid infrastructure lemmas -/

theorem getD_map_range {α : Type*} (g : ℕ → α) (d : α) {i n : ℕ} (h : i < n) :
    ((List.range n).map g).getD i d = g i := by
  rw [List.getD_eq_getElem _ _ (by simpa using h)]
  simp

theorem sum_map_range {M : Type*} [AddCommMonoid M] (g : ℕ → M) (n : ℕ) :
    ((List.range n).map g).sum = ∑ i in Finset.range n, g i := by
  induction n with
  | zero => simp
  | succ n ih =>
      rw [List.range_succ, List.map_append, List.sum_append, Finset.sum_range_succ, ih]
      simp

theorem xgrid_eq : xgrid = (List.range 81).map (fun i : ℕ => -2 + (i : ℚ) * (1/20)) := by
  have h : d3rangeLen (-2) (41/20) (1/20) = 81 := by
    rw [d3rangeLen]
    norm_num
    decide
  rw [xgrid, d3range, h]

theorem ygrid_eq : ygrid = (List.range 121).map (fun i : ℕ => -2 + (i : ℚ) * (1/20)) := by
  have h : d3rangeLen (-2) (81/20) (1/20) = 121 := by
    rw [d3rangeLen]
    norm_num
    decide
  rw [ygrid, d3range, h]

theorem xgrid_length : xgrid.length = 81 := by rw [xgrid_eq]; simp

theorem ygrid_length : ygrid.length = 121 := by rw [ygrid_eq]; simp

theorem xgrid_getD {i : ℕ} (hi : i < 81) : xgrid.getD i 0 = -2 + (i : ℚ) * (1/20) := by
  rw [xgrid_eq, getD_map_range _ _ hi]

theorem ygrid_getD {j : ℕ} (hj : j < 121) : ygrid.getD j 0 = -2 + (j : ℚ) * (1/20) := by
  rw [ygrid_eq, getD_map_range _ _ hj]

theorem dx_eq : dx = 1/20 := by
  rw [dx, xgrid_getD (by norm_num), xgrid_getD (by norm_num)]
  norm_num

theorem dy_eq : dy = 1/20 := by
  rw [dy, ygrid_getD (by norm_num), ygrid_getD (by norm_num)]
  norm_num

theorem Z_length : Z.length = 121 := by rw [Z]; simp [ygrid_length]

theorem Z_getD {k i : ℕ} (hk : k < 121) (hi : i < 81) :
    (Z.getD k []).getD i 0 =
      Real.exp (f (xgrid.getD i 0 : ℝ) (ygrid.getD (120 - k) 0 : ℝ)) := by
  have hk' : k < Z.length := by rw [Z_length]; exact hk
  rw [Z] at hk' ⊢
  have hlt : ygrid.length - 1 - k < ygrid.length := by rw [ygrid_length]; omega
  rw [List.getD_eq_getElem _ _ hk', List.getElem_map, List.getElem_reverse,
    ← List.getD_eq_getElem ygrid 0 hlt,
    show ygrid.length - 1 - k = 120 - k by rw [ygrid_length],
    xgrid_eq, List.map_map, getD_map_range _ _ hi, getD_map_range _ _ hi]
  rfl

theorem conditional_x_sum (y0 : ℝ) :
    (conditional_x_given_y y0).sum =
      ∑ i in Finset.range 81, Real.exp (f (xgrid.getD i 0 : ℝ) y0) := by
  rw [conditional_x_given_y, xgrid_eq, List.map_map, sum_map_range]
  exact Finset.sum_congr rfl (fun i hi => by
    rw [getD_map_range _ _ (Finset.mem_range.mp hi)]
    rfl)

theorem conditional_y_sum (x0 : ℝ) :
    (conditional_y_given_x x0).sum =
      ∑ j in Finset.range 121, Real.exp (f x0 (ygrid.getD j 0 : ℝ)) := by
  rw [conditional_y_given_x, ygrid_eq, List.map_map, sum_map_range]
  exact Finset.sum_congr rfl (fun j hj => by
    rw [getD_map_range _ _ (Finset.mem_range.mp hj)]
    rfl)

theorem conditional_x_getD (y0 : ℝ) {i : ℕ} (hi : i < 81) :
    (conditional_x_given_y y0).getD i 0 = Real.exp (f (xgrid.getD i 0 : ℝ) y0) := by
  rw [xgrid_getD hi, conditional_x_given_y, xgrid_eq, List.map_map, getD_map_range _ _ hi]
  rfl

theorem conditional_y_getD (x0 : ℝ) {j : ℕ} (hj : j < 121) :
    (conditional_y_given_x x0).getD j 0 = Real.exp (f x0 (ygrid.getD j 0 : ℝ)) := by
  rw [ygrid_getD hj, conditional_y_given_x, ygrid_eq, List.map_map, getD_map_range _ _ hj]
  rfl

theorem dx_pos : (0 : ℝ) < (dx : ℝ) := by rw [dx_eq]; norm_num

theorem dy_pos : (0 : ℝ) < (dy : ℝ) := by rw [dy_eq]; norm_num

theorem sum_x_pos (y0 : ℝ) : 0 < sum_x y0 := by
  rw [sum_x, conditional_x_sum]
  exact mul_pos
    (Finset.sum_pos (fun i _ => Real.exp_pos _) (by simp)) dx_pos

theorem sum_y_pos (x0 : ℝ) : 0 < sum_y x0 := by
  rw [sum_y, conditional_y_sum]
  exact mul_pos
    (Finset.sum_pos (fun j _ => Real.exp_pos _) (by simp)) dy_pos

theorem x_given_y_getD (y0 : ℝ) {i : ℕ} (hi : i < 81) :
    (x_given_y y0).getD i 0 = Real.exp (f (xgrid.getD i 0 : ℝ) y0) / sum_x y0 := by
  rw [xgrid_getD hi, x_given_y, conditional_x_given_y, xgrid_eq, List.map_map,
    List.map_map, getD_map_range _ _ hi]
  rfl

theorem y_given_x_getD (x0 : ℝ) {j : ℕ} (hj : j < 121) :
    (y_given_x x0).getD j 0 = Real.exp (f x0 (ygrid.getD j 0 : ℝ)) / sum_y x0 := by
  rw [ygrid_getD hj, y_given_x, conditional_y_given_x, ygrid_eq, List.map_map,
    List.map_map, getD_map_range _ _ hj]
  rfl

theorem x_given_y_sum_one (y0 : ℝ) :
    ∑ i in Finset.range xgrid.length, (x_given_y y0).getD i 0 * (dx : ℝ) = 1 := by
  have hS : sum_x y0 ≠ 0 := ne_of_gt (sum_x_pos y0)
  rw [xgrid_length,
    Finset.sum_congr rfl (fun i hi => by
      rw [x_given_y_getD y0 (Finset.mem_range.mp hi), div_mul_eq_mul_div]),
    ← Finset.sum_div, ← Finset.sum_mul, ← conditional_x_sum]
  exact div_self hS

theorem y_given_x_sum_one (x0 : ℝ) :
    ∑ j in Finset.range ygrid.length, (y_given_x x0).getD j 0 * (dy : ℝ) = 1 := by
  have hS : sum_y x0 ≠ 0 := ne_of_gt (sum_y_pos x0)
  rw [ygrid_length,
    Finset.sum_congr rfl (fun j hj => by
      rw [y_given_x_getD x0 (Finset.mem_range.mp hj), div_mul_eq_mul_div]),
    ← Finset.sum_div, ← Finset.sum_mul, ← conditional_y_sum]
  exact div_self hS

theorem marginal_x_getD {i : ℕ} (hi : i < 81) :
    marginal_x.getD i 0 =
      (∑ j in Finset.range 121, (Z.getD j []).getD i 0) * (dy : ℝ) := by
  rw [marginal_x, getD_map_range _ _ (by rw [xgrid_length]; exact hi), ygrid_length]

theorem marginal_y_getD {j : ℕ} (hj : j < 121) :
    marginal_y.getD j 0 =
      (∑ i in Finset.range 81, (Z.getD (121 - 1 - j) []).getD i 0) * (dx : ℝ) := by
  rw [marginal_y, getD_map_range _ _ (by rw [ygrid_length]; exact hj), xgrid_length,
    ygrid_length]

/-- C2: `marginal_y[j]` equals `dx` times the sum over all `i` of
`exp(f(xgrid[i], ygrid[j]))`: the row-index inversion
`z_row_index = ygrid.length - 1 - j` makes `marginal_y[j]` correspond to the
ascending `y` coordinate `ygrid[j]`, although `Z` stores rows in
descending-`y` order. -/
theorem marginal_y_matches_ascending_y (j : ℕ) (hj : j < ygrid.length) :
    marginal_y.getD j 0 =
      (dx : ℝ) * ∑ i in Finset.range xgrid.length,
        Real.exp (f (xgrid.getD i 0 : ℝ) (ygrid.getD j 0 : ℝ)) := by
  rw [ygrid_length] at hj
  rw [marginal_y_getD hj, xgrid_length,
    Finset.sum_congr rfl (fun i hi =>
      Z_getD (show 121 - 1 - j < 121 by omega) (Finset.mem_range.mp hi)),
    show 120 - (121 - 1 - j) = j by omega, mul_comm]

/-- Witness for C2 at `j = 0`. -/
theorem marginal_y_matches_ascending_y_witness :
    marginal_y.getD 0 0 =
      (dx : ℝ) * ∑ i in Finset.range xgrid.length,
        Real.exp (f (xgrid.getD i 0 : ℝ) (ygrid.getD 0 0 : ℝ)) :=
  marginal_y_matches_ascending_y 0 (by simp [ygrid_length])

/-- C3: for every query point inside the grid bounds, both conditional vectors
returned by `getConditionalDistributions` integrate to 1 via their respective
Riemann sums (exactly, in real arithmetic). -/
theorem conditionals_integrate_to_one (x0 y0 : ℝ)
    (hx1 : -2 ≤ x0) (hx2 : x0 ≤ 2) (hy1 : -2 ≤ y0) (hy2 : y0 ≤ 4) :
    (∑ i in Finset.range xgrid.length, (x_given_y y0).getD i 0 * (dx : ℝ)) = 1 ∧
    (∑ j in Finset.range ygrid.length, (y_given_x x0).getD j 0 * (dy : ℝ)) = 1 :=
  ⟨x_given_y_sum_one y0, y_given_x_sum_one x0⟩

/-- Witness for C3 at the in-bounds query point `(0, 0)`. -/
theorem conditionals_integrate_to_one_witness :
    (∑ i in Finset.range xgrid.length, (x_given_y 0).getD i 0 * (dx : ℝ)) = 1 ∧
    (∑ j in Finset.range ygrid.length, (y_given_x 0).getD j 0 * (dy : ℝ)) = 1 :=
  conditionals_integrate_to_one 0 0 (by norm_num) (by norm_num) (by norm_num)
    (by norm_num)

/-- C10: for every real query point, also outside the grid bounds,
`getConditionalDistributions` is well-defined: every evaluated density value is
strictly positive, hence both normalizing Riemann sums `sum_x` and `sum_y` are
strictly positive, and both returned vectors Riemann-sum to 1. -/
theorem conditionals_well_defined (x0 y0 : ℝ) :
    (∀ i, i < xgrid.length → 0 < (conditional_x_given_y y0).getD i 0) ∧
    0 < sum_x y0 ∧
    (∀ j, j < ygrid.length → 0 < (conditional_y_given_x x0).getD j 0) ∧
    0 < sum_y x0 ∧
    (∑ i in Finset.range xgrid.length, (x_given_y y0).getD i 0 * (dx : ℝ)) = 1 ∧
    (∑ j in Finset.range ygrid.length, (y_given_x x0).getD j 0 * (dy : ℝ)) = 1 := by
  refine ⟨fun i hi => ?_, sum_x_pos y0, fun j hj => ?_, sum_y_pos x0,
    x_given_y_sum_one y0, y_given_x_sum_one x0⟩
  · rw [xgrid_length] at hi
    rw [conditional_x_getD y0 hi]
    exact Real.exp_pos _
  · rw [ygrid_length] at hj
    rw [conditional_y_getD x0 hj]
    exact Real.exp_pos _

/-- Witness for C10 at the (out-of-bounds) query point `(5, -3)`. -/
theorem conditionals_well_defined_witness :
    0 < sum_x (-3) ∧ 0 < sum_y 5 ∧
    (∑ i in Finset.range xgrid.length, (x_given_y (-3)).getD i 0 * (dx : ℝ)) = 1 :=
  ⟨(conditionals_well_defined 5 (-3)).2.1,
    (conditionals_well_defined 5 (-3)).2.2.2.1,
    (conditionals_well_defined 5 (-3)).2.2.2.2.1⟩

/-- C7: the Riemann sums of the two marginal vectors agree with the joint
grid's total mass: `Σ_i marginal_x[i]·dx`, `Σ_j marginal_y[j]·dy` and
`dx·dy·Σ Z` are all equal (exactly, in real arithmetic). -/
theorem marginals_match_total_mass :
    (∑ i in Finset.range xgrid.length, marginal_x.getD i 0 * (dx : ℝ)) =
      (dx : ℝ) * (dy : ℝ) *
        ∑ j in Finset.range ygrid.length, ∑ i in Finset.range xgrid.length,
          (Z.getD j []).getD i 0 ∧
    (∑ j in Finset.range ygrid.length, marginal_y.getD j 0 * (dy : ℝ)) =
      (dx : ℝ) * (dy : ℝ) *
        ∑ j in Finset.range ygrid.length, ∑ i in Finset.range xgrid.length,
          (Z.getD j []).getD i 0 := by
  constructor
  · rw [xgrid_length, ygrid_length,
      Finset.sum_congr rfl (fun i hi => by
        rw [marginal_x_getD (Finset.mem_range.mp hi)])]
    simp only [Finset.sum_mul, Finset.mul_sum]
    rw [Finset.sum_comm]
    exact Finset.sum_congr rfl (fun j _ => Finset.sum_congr rfl (fun i _ => by ring))
  · rw [xgrid_length, ygrid_length,
      Finset.sum_congr rfl (fun j hj => by
        rw [marginal_y_getD (Finset.mem_range.mp hj)]),
      Finset.sum_range_reflect
        (fun j => (∑ i in Finset.range 81, (Z.getD j []).getD i 0) * (dx : ℝ) * (dy : ℝ))]
    simp only [Finset.sum_mul, Finset.mul_sum]
    exact Finset.sum_congr rfl (fun j _ => Finset.sum_congr rfl (fun i _ => by ring))

end Bivariate

namespace CLT

/-! ### The `normal` helper: Abramowitz–Stegun `erf` and the normal PDF/CDF -/

/-- Coefficient `a1` of the Abramowitz and Stegun approximation. -/
def a1 : ℝ := 0.254829592

/-- Coefficient `a2`. -/
def a2 : ℝ := -0.284496736

/-- Coefficient `a3`. -/
def a3 : ℝ := 1.421413741

/-- Coefficient `a4`. -/
def a4 : ℝ := -1.453152027

/-- Coefficient `a5`. -/
def a5 : ℝ := 1.061405429

/-- Coefficient `p`. -/
def p : ℝ := 0.3275911

/-- `normal.pdf(x) = (1 / sqrt(2π)) * exp(-0.5 x²)`. -/
noncomputable def pdf (x : ℝ) : ℝ :=
  (1 / Real.sqrt (2 * Real.pi)) * Real.exp (-0.5 * x * x)

/-- `normal.erf`, the Abramowitz and Stegun approximation as implemented. -/
noncomputable def erf (x : ℝ) : ℝ :=
  let s : ℝ := if x ≥ 0 then 1 else -1
  let ax := |x|
  let t := 1.0 / (1.0 + p * ax)
  let y := 1.0 - (((((a5 * t + a4) * t) + a3) * t + a2) * t + a1) * t *
    Real.exp (-ax * ax)
  s * y

/-- `normal.cdf(x) = 0.5 * (1 + erf(x / sqrt 2))`. -/
noncomputable def cdf (x : ℝ) : ℝ := 0.5 * (1 + erf (x / Real.sqrt 2))

/-! ### The distribution registry -/

/-- A registered distribution: declared mean, declared standard deviation, and
the sampling function, written as a function of the uniform draw
`u = Math.random()` it consumes. -/
structure Distribution where
  mean : ℝ
  std : ℝ
  random : ℝ → ℝ

/-- `skewed_p1 = 0.7`. -/
def skewed_p1 : ℝ := 0.7

/-- `skewed_p2 = 0.2` (so `P(X=10)` is `0.1`). -/
def skewed_p2 : ℝ := 0.2

/-- `skewed_mean = 0*p1 + 1*p2 + 10*(1 - p1 - p2)`. -/
noncomputable def skewed_mean : ℝ :=
  0 * skewed_p1 + 1 * skewed_p2 + 10 * (1 - skewed_p1 - skewed_p2)

/-- `skewed_mean_sq = 0*p1 + 1*p2 + 100*(1 - p1 - p2)`. -/
noncomputable def skewed_mean_sq : ℝ :=
  0 * skewed_p1 + 1 * skewed_p2 + 100 * (1 - skewed_p1 - skewed_p2)

/-- `skewed_var = skewed_mean_sq - skewed_mean**2`. -/
noncomputable def skewed_var : ℝ := skewed_mean_sq - skewed_mean ^ 2

/-- The `'Uniform'` entry: `mean 0.5`, `std 1/sqrt(12)`, `random() = u`. -/
noncomputable def Uniform : Distribution :=
  ⟨0.5, 1 / Real.sqrt 12, fun u => u⟩

/-- The `'Exponential'` entry: `mean 1`, `std 1`, `random() = -ln(1 - u)`. -/
noncomputable def Exponential : Distribution :=
  ⟨1, 1, fun u => -Real.log (1 - u)⟩

/-- The `'Bernoulli'` entry: `mean 0.5`, `std 0.5`,
`random() = u < 0.5 ? 1 : 0`. -/
noncomputable def Bernoulli : Distribution :=
  ⟨0.5, 0.5, fun u => if u < 0.5 then 1 else 0⟩

/-- The `'Skewed Discrete'` entry: `mean skewed_mean`,
`std sqrt(skewed_var)`, sampler returning 0, 1, 10 on the subintervals
`[0, p1)`, `[p1, p1+p2)`, `[p1+p2, 1)`. -/
noncomputable def SkewedDiscrete : Distribution :=
  ⟨skewed_mean, Real.sqrt skewed_var, fun u =>
    if u < skewed_p1 then 0 else if u < skewed_p1 + skewed_p2 then 1 else 10⟩

/-- The registry `distributions[name]`; an unknown name yields `none`
(JavaScript `undefined`). -/
noncomputable def distributions (name : String) : Option Distribution :=
  if name = "Uniform" then some Uniform
  else if name = "Exponential" then some Exponential
  else if name = "Bernoulli" then some Bernoulli
  else if name = "Skewed Discrete" then some SkewedDiscrete
  else none

/-! ### The simulation loop (lines 74–88 of `clt-demo.js`) -/

/-- The simulation loop for a present distribution record: for each of
`numSimulations` repetitions draw `sampleSize` samples, take their mean, and,
when `dist.std > 0`, push the standardized mean
`(sampleMean - mean) / (std / sqrt(sampleSize))`.  With `sampleSize = 0` the
guard `if (sampleSize > 0)` skips the whole loop. -/
noncomputable def simulateDist (dist : Distribution)
    (sampleSize numSimulations : ℕ) (stream : ℕ → ℝ) : List ℝ :=
  if 0 < sampleSize then
    (List.range numSimulations).filterMap (fun i =>
      let sampleMean :=
        (∑ j in Finset.range sampleSize, dist.random (stream (i * sampleSize + j))) /
          (sampleSize : ℝ)
      if 0 < dist.std then
        some ((sampleMean - dist.mean) / (dist.std / Real.sqrt (sampleSize : ℝ)))
      else none)
    else []

/-- The simulation including the registry lookup.  `none` models a thrown
`TypeError`: when the name is unknown, `dist.random()` is reached (and throws)
if and only if both loops execute at least once, i.e. `sampleSize > 0` and
`numSimulations > 0`. -/
noncomputable def simulate (distName : String)
    (sampleSize numSimulations : ℕ) (stream : ℕ → ℝ) : Option (List ℝ) :=
  match distributions distName with
  | some dist => some (simulateDist dist sampleSize numSimulations stream)
  | none => if 0 < sampleSize ∧ 0 < numSimulations then none else some []

/-! ### The empirical CDF step sequence (lines 164–172 of `clt-demo.js`) -/

/-- A point `{x, y}` of the ECDF polyline. -/
structure ECDFPoint where
  x : ℝ
  y : ℝ

instance : Inhabited ECDFPoint := ⟨⟨0, 0⟩⟩

/-- `sortedMeans = standardizedMeans.slice().sort(d3.ascending)`. -/
noncomputable def sortedMeans (means : List ℝ) : List ℝ :=
  means.mergeSort (fun a b => a ≤ b)

/-- `ecdfData`: for a nonempty sorted sequence `s` of length `m`, the point
`{x: s[0], y: 0}` followed, for each `i`, by `{x: s[i], y: i/m}` and
`{x: s[i], y: (i+1)/m}`. -/
noncomputable def ecdfData (means : List ℝ) : List ECDFPoint :=
  if 0 < (sortedMeans means).length then
    ⟨(sortedMeans means).getD 0 0, 0⟩ ::
      ((List.range (sortedMeans means).length).map (fun i =>
        [(⟨(sortedMeans means).getD i 0,
            (i : ℝ) / ((sortedMeans means).length : ℝ)⟩ : ECDFPoint),
         ⟨(sortedMeans means).getD i 0,
            ((i : ℝ) + 1) / ((sortedMeans means).length : ℝ)⟩])).flatten
  else []

/-! ### Claims about the simulation -/

/-- C5: for every distribution record whose `std` equals 0, and for every
sample size and repetition count, the simulation loop produces an empty
`standardizedMeans` sequence: the `dist.std > 0` guard rejects every
repetition, so the standardization (and its division by
`dist.std / sqrt(sampleSize)`) is never performed. -/
theorem std_zero_gives_empty (dist : Distribution) (h : dist.std = 0)
    (sampleSize numSimulations : ℕ) (stream : ℕ → ℝ) :
    simulateDist dist sampleSize numSimulations stream = [] := by
  have hstd : ¬ 0 < dist.std := by
    rw [h]
    exact lt_irrefl 0
  rw [simulateDist]
  split
  · simp [hstd]
  · rfl

/-- Witness for C5: a degenerate distribution with `std = 0`. -/
theorem std_zero_gives_empty_witness :
    simulateDist ⟨0, 0, fun u => u⟩ 5 3 (fun n => (n : ℝ)) = [] :=
  std_zero_gives_empty ⟨0, 0, fun u => u⟩ rfl 5 3 (fun n => (n : ℝ))

/-- C6: for `sampleSize = 0` the simulation returns an empty
`standardizedMeans` sequence (and no error), for every distribution name and
every repetition count. -/
theorem sample_size_zero_gives_empty (distName : String) (numSimulations : ℕ)
    (stream : ℕ → ℝ) :
    simulate distName 0 numSimulations stream = some [] := by
  rw [simulate]
  cases hd : distributions distName with
  | some dist => simp [simulateDist]
  | none => simp

/-- C9, counterexample: with the unregistered name `"Gaussian"` but
`sampleSize = 0`, the simulation does NOT fail: it returns the empty sequence,
because `dist.random()` is never reached. -/
theorem unknown_name_no_error_at_zero :
    distributions "Gaussian" = none ∧
    simulate "Gaussian" 0 5 (fun n => (n : ℝ)) = some [] := by
  have h : distributions "Gaussian" = none := by
    rw [distributions]
    simp
  exact ⟨h, by rw [simulate, h]; simp⟩

/-- C9, amended: for every distribution name that is not registered, the
simulation throws (models the JavaScript `TypeError` on `dist.random()`)
whenever `sampleSize > 0` and `numSimulations > 0`, i.e. whenever the loop
body actually runs. -/
theorem unknown_name_fails_fast (distName : String)
    (h : distributions distName = none) (sampleSize numSimulations : ℕ)
    (hn : 0 < sampleSize) (hm : 0 < numSimulations) (stream : ℕ → ℝ) :
    simulate distName sampleSize numSimulations stream = none := by
  rw [simulate, h]
  simp [hn, hm]

/-- Witness for the amended C9 at `"Gaussian"`, `sampleSize = 1`,
`numSimulations = 1`. -/
theorem unknown_name_fails_fast_witness :
    simulate "Gaussian" 1 1 (fun n => (n : ℝ)) = none :=
  unknown_name_fails_fast "Gaussian" (by rw [distributions]; simp) 1 1
    (by decide) (by decide) (fun n => (n : ℝ))

/-! ### Claims about `erf` and `cdf` at 0 -/

/-- The exact value of the implemented `erf` at 0: the five coefficients sum
to `0.999999999`, so `erf(0) = 1 - 0.999999999 = 10⁻⁹`. -/
theorem erf_zero_eq : erf 0 = 1 / 1000000000 := by
  rw [erf]
  norm_num [a1, a2, a3, a4, a5, p]

/-- C8, counterexample: as implemented, `erf(0)` is not exactly 0 and
`Φ(0)` is not exactly 0.5. -/
theorem erf_zero_not_exact : erf 0 ≠ 0 ∧ cdf 0 ≠ 0.5 := by
  constructor
  · rw [erf_zero_eq]
    norm_num
  · rw [cdf, zero_div, erf_zero_eq]
    norm_num

/-- C8, amended: `erf(0) = 10⁻⁹` and `Φ(0) = 0.5·(1 + 10⁻⁹) = 0.5 + 5·10⁻¹⁰`
exactly; both are within the approximation's stated error bound `1.5×10⁻⁷`
of 0 and 0.5 respectively, but neither is exact. -/
theorem erf_zero_within_bound :
    erf 0 = 1 / 1000000000 ∧ cdf 0 = 1 / 2 + 1 / 2000000000 ∧
    |erf 0 - 0| ≤ 15 / 100000000 ∧ |cdf 0 - 1 / 2| ≤ 15 / 100000000 := by
  have h1 : erf 0 = 1 / 1000000000 := erf_zero_eq
  have h2 : cdf 0 = 1 / 2 + 1 / 2000000000 := by
    rw [cdf, zero_div, erf_zero_eq]
    norm_num
  refine ⟨h1, h2, ?_, ?_⟩
  · rw [h1, sub_zero, abs_of_nonneg (by norm_num : (0:ℝ) ≤ 1 / 1000000000)]
    norm_num
  · rw [h2, add_sub_cancel_left, abs_of_nonneg (by norm_num : (0:ℝ) ≤ 1 / 2000000000)]
    norm_num

/-! ### Claims about the empirical CDF -/

theorem sortedMeans_sorted (means : List ℝ) :
    List.Sorted (· ≤ ·) (sortedMeans means) := by
  simpa [sortedMeans] using List.sorted_mergeSort' (α := ℝ) means

theorem sortedMeans_length (means : List ℝ) :
    (sortedMeans means).length = means.length :=
  (List.mergeSort_perm means _).length_eq

theorem flatten_pairs_length {α : Type*} (g h : ℕ → α) (n : ℕ) :
    ((List.range n).map (fun i => [g i, h i])).flatten.length = 2 * n := by
  induction n with
  | zero => simp
  | succ n ih =>
      rw [List.range_succ, List.map_append, List.flatten_append, List.length_append, ih]
      simp
      omega

theorem flatten_pairs_getD {α : Type*} (g h : ℕ → α) (d : α) (n : ℕ) :
    ∀ k, k < n →
      ((List.range n).map (fun i => [g i, h i])).flatten.getD (2 * k) d = g k ∧
      ((List.range n).map (fun i => [g i, h i])).flatten.getD (2 * k + 1) d = h k := by
  induction n with
  | zero => intro k hk; omega
  | succ n ih =>
      intro k hk
      rw [List.range_succ, List.map_append, List.flatten_append]
      by_cases hkn : k < n
      · have h1 : 2 * k < ((List.range n).map (fun i => [g i, h i])).flatten.length := by
          rw [flatten_pairs_length]
          omega
        have h2 : 2 * k + 1 < ((List.range n).map (fun i => [g i, h i])).flatten.length := by
          rw [flatten_pairs_length]
          omega
        rw [List.getD_append _ _ _ _ h1, List.getD_append _ _ _ _ h2]
        exact ih k hkn
      · have hkeq : k = n := by omega
        subst hkeq
        have hL : ((List.range k).map (fun i => [g i, h i])).flatten.length = 2 * k :=
          flatten_pairs_length g h k
        constructor
        · rw [List.getD_append_right _ _ _ _ (by omega : _ ≤ 2 * k), hL]
          simp
        · rw [List.getD_append_right _ _ _ _ (by omega : _ ≤ 2 * k + 1), hL]
          simp

theorem ecdfData_length (means : List ℝ) (h : 0 < (sortedMeans means).length) :
    (ecdfData means).length = 2 * (sortedMeans means).length + 1 := by
  rw [ecdfData, if_pos h, List.length_cons, flatten_pairs_length]

theorem ecdfData_getD_zero (means : List ℝ) (h : 0 < (sortedMeans means).length) :
    (ecdfData means).getD 0 default = ⟨(sortedMeans means).getD 0 0, 0⟩ := by
  rw [ecdfData, if_pos h]
  rfl

theorem ecdfData_getD_pair (means : List ℝ) {i : ℕ}
    (hi : i < (sortedMeans means).length) :
    (ecdfData means).getD (2 * i + 1) default =
      ⟨(sortedMeans means).getD i 0,
        (i : ℝ) / ((sortedMeans means).length : ℝ)⟩ ∧
    (ecdfData means).getD (2 * i + 2) default =
      ⟨(sortedMeans means).getD i 0,
        ((i : ℝ) + 1) / ((sortedMeans means).length : ℝ)⟩ := by
  have h : 0 < (sortedMeans means).length := by omega
  rw [ecdfData, if_pos h, List.getD_cons_succ, List.getD_cons_succ]
  exact (flatten_pairs_getD _ _ _ _ i hi).imp id (fun hsnd => by
    rw [show 2 * i + 1 = 2 * i + 1 from rfl] at hsnd
    exact hsnd)

theorem sorted_head_le {l : List ℝ} (hs : List.Sorted (· ≤ ·) l) :
    ∀ a ∈ l, l.getD 0 0 ≤ a := by
  cases l with
  | nil => intro a ha; simp at ha
  | cons b t =>
      intro a ha
      rcases List.mem_cons.mp ha with rfl | hat
      · exact le_refl a
      · exact (List.sorted_cons.mp hs).1 a hat

theorem ecdfData_y_mono (means : List ℝ) (h : 0 < (sortedMeans means).length) :
    ∀ k, k + 1 < (ecdfData means).length →
      ((ecdfData means).getD k default).y ≤
        ((ecdfData means).getD (k + 1) default).y := by
  intro k hk
  rw [ecdfData_length means h] at hk
  have hm : (0 : ℝ) < ((sortedMeans means).length : ℝ) := by
    exact_mod_cast h
  rcases k with _ | k
  · rw [ecdfData_getD_zero means h,
      show 0 + 1 = 2 * 0 + 1 by omega,
      (ecdfData_getD_pair means (by omega : 0 < (sortedMeans means).length)).1]
    simp
  · rcases Nat.even_or_odd k with ⟨i, hi⟩ | ⟨i, hi⟩
    · -- k = 2i, positions 2i+1 and 2i+2 : i/m ≤ (i+1)/m
      subst hi
      have hilt : i < (sortedMeans means).length := by omega
      rw [show i + i + 1 = 2 * i + 1 by omega,
        (ecdfData_getD_pair means hilt).1,
        show 2 * i + 1 + 1 = 2 * i + 2 by omega,
        (ecdfData_getD_pair means hilt).2]
      exact (div_le_div_right hm).mpr (by linarith)
    · -- k = 2i+1, positions 2i+2 and 2(i+1)+1 : both (i+1)/m
      subst hi
      have hilt : i < (sortedMeans means).length := by omega
      have hilt1 : i + 1 < (sortedMeans means).length := by omega
      rw [show 2 * i + 1 + 1 = 2 * i + 2 by omega,
        (ecdfData_getD_pair means hilt).2,
        show 2 * i + 2 + 1 = 2 * (i + 1) + 1 by omega,
        (ecdfData_getD_pair means hilt1).1]
      push_cast
      exact le_refl _

/-- C4: for every nonempty input sequence, with `s` its ascending sort and
`m = s.length` (one sorted value per input value), the empirical CDF step
sequence has `2m + 1` points; it starts at `y = 0` placed at the minimum
sorted value `s[0]`; at the `i`-th sorted value it steps from `y = i/m` to
`y = (i+1)/m` (exactly one rise of `1/m` per input value); it ends at
`y = 1`; and its `y`-values are non-decreasing throughout. -/
theorem ecdf_step_sequence (means : List ℝ) (hne : means ≠ []) :
    (sortedMeans means).length = means.length ∧
    (ecdfData means).length = 2 * (sortedMeans means).length + 1 ∧
    (ecdfData means).getD 0 default = ⟨(sortedMeans means).getD 0 0, 0⟩ ∧
    (∀ a ∈ sortedMeans means, (sortedMeans means).getD 0 0 ≤ a) ∧
    (∀ i, i < (sortedMeans means).length →
      (ecdfData means).getD (2 * i + 1) default =
        ⟨(sortedMeans means).getD i 0,
          (i : ℝ) / ((sortedMeans means).length : ℝ)⟩ ∧
      (ecdfData means).getD (2 * i + 2) default =
        ⟨(sortedMeans means).getD i 0,
          ((i : ℝ) + 1) / ((sortedMeans means).length : ℝ)⟩) ∧
    ((ecdfData means).getD (2 * (sortedMeans means).length) default).y = 1 ∧
    (∀ k, k + 1 < (ecdfData means).length →
      ((ecdfData means).getD k default).y ≤
        ((ecdfData means).getD (k + 1) default).y) := by
  have hlen : 0 < (sortedMeans means).length := by
    rw [sortedMeans_length]
    exact List.length_pos.mpr hne
  refine ⟨sortedMeans_length means, ecdfData_length means hlen,
    ecdfData_getD_zero means hlen,
    sorted_head_le (sortedMeans_sorted means),
    fun i hi => ecdfData_getD_pair means hi, ?_, ecdfData_y_mono means hlen⟩
  have hm1 : (sortedMeans means).length - 1 < (sortedMeans means).length := by
    omega
  rw [show 2 * (sortedMeans means).length =
      2 * ((sortedMeans means).length - 1) + 2 by omega,
    (ecdfData_getD_pair means hm1).2]
  have hmR : ((sortedMeans means).length : ℝ) ≠ 0 := by
    exact_mod_cast Nat.pos_iff_ne_zero.mp hlen
  rw [show ((((sortedMeans means).length - 1 : ℕ) : ℝ) + 1) =
      (((sortedMeans means).length : ℕ) : ℝ) by
    push_cast [Nat.cast_sub (by omega : 1 ≤ (sortedMeans means).length)]
    ring]
  exact div_self hmR

/-- Witness for C4 on the one-element input `[1]`. -/
theorem ecdf_step_sequence_witness :
    (ecdfData [1]).length = 2 * (sortedMeans [1]).length + 1 ∧
    ((ecdfData [1]).getD (2 * (sortedMeans [1]).length) default).y = 1 :=
  ⟨(ecdf_step_sequence [1] (by simp)).2.1,
   (ecdf_step_sequence [1] (by simp)).2.2.2.2.2.1⟩

/-! ### Implied moments of the samplers (for C1)

The distribution implied by a sampling function `random : u ↦ random u`
(with `u` uniform on the unit interval) has first moment
`∫ u in 0..1, random u` and second moment `∫ u in 0..1, (random u)²`;
its standard deviation is `sqrt(E[X²] − E[X]²)`. -/

/-- First moment of the law implied by the sampler. -/
noncomputable def impliedMean (d : Distribution) : ℝ :=
  ∫ u in (0:ℝ)..1, d.random u

/-- Second moment of the law implied by the sampler. -/
noncomputable def impliedSecondMoment (d : Distribution) : ℝ :=
  ∫ u in (0:ℝ)..1, (d.random u) ^ 2

/-- Standard deviation of the law implied by the sampler. -/
noncomputable def impliedStd (d : Distribution) : ℝ :=
  Real.sqrt (impliedSecondMoment d - impliedMean d ^ 2)

theorem Uniform_random_apply (u : ℝ) : Uniform.random u = u := rfl

theorem Exponential_random_apply (u : ℝ) :
    Exponential.random u = -Real.log (1 - u) := rfl

theorem Bernoulli_random_apply (u : ℝ) :
    Bernoulli.random u = if u < 0.5 then 1 else 0 := rfl

theorem SkewedDiscrete_random_apply (u : ℝ) :
    SkewedDiscrete.random u =
      if u < skewed_p1 then 0 else if u < skewed_p1 + skewed_p2 then 1 else 10 := rfl

/-- Integral over the unit interval of a left step function
`u ↦ if u < c then v else 0` with breakpoint `c ∈ [0, 1]`. -/
theorem integral_step_lt (c v : ℝ) (h0 : 0 ≤ c) (h1 : c ≤ 1) :
    ∫ u in (0:ℝ)..1, (if u < c then v else 0) = v * c := by
  have hind : (fun u : ℝ => if u < c then v else 0) =
      Set.indicator (Iio c) (fun _ => v) := by
    funext u
    simp [Set.indicator_apply]
  have hset : Iio c ∩ Ioc (0:ℝ) 1 = Ioo 0 c := by
    ext u
    simp only [mem_inter_iff, mem_Ioc, mem_Iio, mem_Ioo]
    constructor
    · rintro ⟨huc, hu0, _⟩
      exact ⟨hu0, huc⟩
    · rintro ⟨hu0, huc⟩
      exact ⟨huc, hu0, huc.le.trans h1⟩
  rw [integral_of_le (by norm_num : (0:ℝ) ≤ 1), hind,
    MeasureTheory.integral_indicator measurableSet_Iio,
    MeasureTheory.Measure.restrict_restrict measurableSet_Iio, hset,
    MeasureTheory.setIntegral_const, Real.volume_Ioo,
    ENNReal.toReal_ofReal (by linarith : (0:ℝ) ≤ c - 0)]
  rw [smul_eq_mul]
  ring

/-- A step function on the unit interval is interval integrable. -/
theorem intervalIntegrable_step_lt (c v : ℝ) :
    IntervalIntegrable (fun u : ℝ => if u < c then v else 0)
      MeasureTheory.volume 0 1 := by
  have hind : (fun u : ℝ => if u < c then v else 0) =
      Set.indicator (Iio c) (fun _ => v) := by
    funext u
    simp [Set.indicator_apply]
  rw [intervalIntegrable_iff, hind]
  exact (MeasureTheory.integrableOn_const.mpr
    (Or.inr measure_Ioc_lt_top)).indicator measurableSet_Iio

theorem Uniform_impliedMean : impliedMean Uniform = 0.5 := by
  rw [impliedMean]
  simp only [Uniform_random_apply]
  rw [integral_id]
  norm_num

theorem Uniform_impliedSecondMoment : impliedSecondMoment Uniform = 1 / 3 := by
  rw [impliedSecondMoment]
  simp only [Uniform_random_apply]
  rw [integral_pow]
  norm_num

theorem Uniform_impliedStd : impliedStd Uniform = 1 / Real.sqrt 12 := by
  rw [impliedStd, Uniform_impliedMean, Uniform_impliedSecondMoment,
    show (1 / 3 - (0.5:ℝ) ^ 2) = (12:ℝ)⁻¹ by norm_num, Real.sqrt_inv, one_div]

theorem Bernoulli_impliedMean : impliedMean Bernoulli = 0.5 := by
  rw [impliedMean]
  simp only [Bernoulli_random_apply]
  rw [integral_step_lt 0.5 1 (by norm_num) (by norm_num)]
  norm_num

theorem Bernoulli_impliedSecondMoment : impliedSecondMoment Bernoulli = 0.5 := by
  rw [impliedSecondMoment]
  simp only [Bernoulli_random_apply]
  have hsq : ∀ u : ℝ, (if u < (0.5:ℝ) then (1:ℝ) else 0) ^ 2 =
      if u < (0.5:ℝ) then (1:ℝ) else 0 := by
    intro u
    by_cases hu : u < (0.5:ℝ) <;> simp [hu]
  simp only [hsq]
  rw [integral_step_lt 0.5 1 (by norm_num) (by norm_num)]
  norm_num

theorem Bernoulli_impliedStd : impliedStd Bernoulli = 0.5 := by
  rw [impliedStd, Bernoulli_impliedMean, Bernoulli_impliedSecondMoment,
    show ((0.5:ℝ) - (0.5:ℝ) ^ 2) = (0.5:ℝ) ^ 2 by norm_num,
    Real.sqrt_sq (by norm_num : (0:ℝ) ≤ 0.5)]

/-! Exponential moments: substitute `v = exp(-t)` to reduce the improper
integrals `∫₀¹ (-log v) dv` and `∫₀¹ (log v)² dv` to values of `Γ`. -/

theorem exp_neg_hasDeriv :
    ∀ x ∈ Ioi (0:ℝ), HasDerivWithinAt (fun t : ℝ => Real.exp (-t))
      (-Real.exp (-x)) (Ioi 0) x := by
  intro x _
  have h := (Real.hasDerivAt_exp (-x)).comp x (hasDerivAt_neg x)
  rw [mul_neg_one] at h
  exact h.hasDerivWithinAt

theorem exp_neg_injOn : InjOn (fun t : ℝ => Real.exp (-t)) (Ioi 0) := by
  intro a _ b _ hab
  have h := Real.exp_injective hab
  exact neg_injective h

theorem exp_neg_image : (fun t : ℝ => Real.exp (-t)) '' Ioi 0 = Ioo 0 1 := by
  ext v
  constructor
  · rintro ⟨t, ht, rfl⟩
    refine ⟨Real.exp_pos _, ?_⟩
    rw [Real.exp_lt_one_iff]
    simpa using ht
  · intro hv
    refine ⟨-Real.log v, ?_, ?_⟩
    · simpa using Real.log_neg hv.1 hv.2
    · show Real.exp (-(-Real.log v)) = v
      rw [neg_neg, Real.exp_log hv.1]

theorem integral_unit_eq_gamma (g : ℝ → ℝ) :
    ∫ v in (0:ℝ)..1, g v = ∫ x in Ioi (0:ℝ), |(-Real.exp (-x))| • g (Real.exp (-x)) := by
  rw [integral_of_le (by norm_num : (0:ℝ) ≤ 1),
    MeasureTheory.integral_Ioc_eq_integral_Ioo, ← exp_neg_image,
    MeasureTheory.integral_image_eq_integral_abs_deriv_smul measurableSet_Ioi
      exp_neg_hasDeriv exp_neg_injOn]

theorem Gamma_two : Real.Gamma 2 = 1 := by
  rw [show (2:ℝ) = 1 + 1 by norm_num, Real.Gamma_add_one one_ne_zero,
    Real.Gamma_one, mul_one]

theorem Gamma_three : Real.Gamma 3 = 2 := by
  rw [show (3:ℝ) = 2 + 1 by norm_num, Real.Gamma_add_one (by norm_num), Gamma_two,
    mul_one]

theorem integral_neg_log_unit : ∫ v in (0:ℝ)..1, -Real.log v = 1 := by
  rw [integral_unit_eq_gamma (fun v => -Real.log v)]
  have hcongr : ∀ x ∈ Ioi (0:ℝ),
      |(-Real.exp (-x))| • -Real.log (Real.exp (-x)) = Real.exp (-x) * x ^ ((2:ℝ) - 1) := by
    intro x _
    rw [abs_neg, abs_of_pos (Real.exp_pos _), Real.log_exp, neg_neg, smul_eq_mul,
      show (2:ℝ) - 1 = 1 by norm_num, Real.rpow_one]
  rw [MeasureTheory.setIntegral_congr_fun measurableSet_Ioi hcongr,
    ← Real.Gamma_eq_integral (by norm_num : (0:ℝ) < 2), Gamma_two]

theorem integral_log_sq_unit : ∫ v in (0:ℝ)..1, Real.log v ^ 2 = 2 := by
  rw [integral_unit_eq_gamma (fun v => Real.log v ^ 2)]
  have hcongr : ∀ x ∈ Ioi (0:ℝ),
      |(-Real.exp (-x))| • Real.log (Real.exp (-x)) ^ 2 =
        Real.exp (-x) * x ^ ((3:ℝ) - 1) := by
    intro x _
    rw [abs_neg, abs_of_pos (Real.exp_pos _), Real.log_exp, smul_eq_mul, neg_pow,
      show (3:ℝ) - 1 = ((2:ℕ):ℝ) by norm_num, Real.rpow_natCast]
    norm_num
  rw [MeasureTheory.setIntegral_congr_fun measurableSet_Ioi hcongr,
    ← Real.Gamma_eq_integral (by norm_num : (0:ℝ) < 3), Gamma_three]

theorem Exponential_impliedMean : impliedMean Exponential = 1 := by
  rw [impliedMean]
  simp only [Exponential_random_apply]
  have h : (∫ u in (0:ℝ)..1, -Real.log (1 - u)) = ∫ v in (0:ℝ)..1, -Real.log v := by
    have h0 := integral_comp_sub_left (a := (0:ℝ)) (b := 1) (fun v => -Real.log v) 1
    simpa using h0
  rw [h, integral_neg_log_unit]

theorem Exponential_impliedSecondMoment : impliedSecondMoment Exponential = 2 := by
  rw [impliedSecondMoment]
  simp only [Exponential_random_apply, neg_sq]
  have h : (∫ u in (0:ℝ)..1, Real.log (1 - u) ^ 2) = ∫ v in (0:ℝ)..1, Real.log v ^ 2 := by
    have h0 := integral_comp_sub_left (a := (0:ℝ)) (b := 1) (fun v => Real.log v ^ 2) 1
    simpa using h0
  rw [h, integral_log_sq_unit]

theorem Exponential_impliedStd : impliedStd Exponential = 1 := by
  rw [impliedStd, Exponential_impliedMean, Exponential_impliedSecondMoment]
  norm_num

theorem skewed_mean_eq : skewed_mean = 1.2 := by
  rw [skewed_mean, skewed_p1, skewed_p2]
  norm_num

theorem skewed_var_eq : skewed_var = 8.76 := by
  rw [skewed_var, skewed_mean_sq, skewed_mean, skewed_p1, skewed_p2]
  norm_num

theorem skewed_random_decomp (u : ℝ) :
    SkewedDiscrete.random u =
      10 + (if u < (0.9:ℝ) then (-9:ℝ) else 0) + (if u < (0.7:ℝ) then (-1:ℝ) else 0) := by
  rw [SkewedDiscrete_random_apply, skewed_p1, skewed_p2,
    show (0.7 + 0.2 : ℝ) = 0.9 by norm_num]
  by_cases h1 : u < (0.7:ℝ)
  · by_cases h2 : u < (0.9:ℝ)
    · rw [if_pos h1, if_pos h2, if_pos h1]
      norm_num
    · exact absurd (h1.trans_le (by norm_num)) h2
  · by_cases h2 : u < (0.9:ℝ)
    · rw [if_neg h1, if_pos h2, if_pos h2, if_neg h1]
      norm_num
    · rw [if_neg h1, if_neg h2, if_neg h2, if_neg h1]
      norm_num

theorem skewed_sq_decomp (u : ℝ) :
    SkewedDiscrete.random u ^ 2 =
      100 + (if u < (0.9:ℝ) then (-99:ℝ) else 0) + (if u < (0.7:ℝ) then (-1:ℝ) else 0) := by
  rw [SkewedDiscrete_random_apply, skewed_p1, skewed_p2,
    show (0.7 + 0.2 : ℝ) = 0.9 by norm_num]
  by_cases h1 : u < (0.7:ℝ)
  · by_cases h2 : u < (0.9:ℝ)
    · rw [if_pos h1, if_pos h2, if_pos h1]
      norm_num
    · exact absurd (h1.trans_le (by norm_num)) h2
  · by_cases h2 : u < (0.9:ℝ)
    · rw [if_neg h1, if_pos h2, if_pos h2, if_neg h1]
      norm_num
    · rw [if_neg h1, if_neg h2, if_neg h2, if_neg h1]
      norm_num

theorem SkewedDiscrete_impliedMean : impliedMean SkewedDiscrete = 1.2 := by
  have hcongr : (∫ u in (0:ℝ)..1, SkewedDiscrete.random u) =
      ∫ u in (0:ℝ)..1, ((10:ℝ) + (if u < (0.9:ℝ) then (-9:ℝ) else 0) +
        (if u < (0.7:ℝ) then (-1:ℝ) else 0)) :=
    integral_congr (fun u _ => skewed_random_decomp u)
  have i1 : IntervalIntegrable
      (fun u : ℝ => (10:ℝ) + (if u < (0.9:ℝ) then (-9:ℝ) else 0))
      MeasureTheory.volume 0 1 :=
    intervalIntegrable_const.add (intervalIntegrable_step_lt 0.9 (-9))
  rw [impliedMean, hcongr,
    integral_add i1 (intervalIntegrable_step_lt 0.7 (-1)),
    integral_add intervalIntegrable_const (intervalIntegrable_step_lt 0.9 (-9)),
    intervalIntegral.integral_const,
    integral_step_lt 0.9 (-9) (by norm_num) (by norm_num),
    integral_step_lt 0.7 (-1) (by norm_num) (by norm_num)]
  norm_num

theorem SkewedDiscrete_impliedSecondMoment :
    impliedSecondMoment SkewedDiscrete = 10.2 := by
  have hcongr : (∫ u in (0:ℝ)..1, SkewedDiscrete.random u ^ 2) =
      ∫ u in (0:ℝ)..1, ((100:ℝ) + (if u < (0.9:ℝ) then (-99:ℝ) else 0) +
        (if u < (0.7:ℝ) then (-1:ℝ) else 0)) :=
    integral_congr (fun u _ => skewed_sq_decomp u)
  have i1 : IntervalIntegrable
      (fun u : ℝ => (100:ℝ) + (if u < (0.9:ℝ) then (-99:ℝ) else 0))
      MeasureTheory.volume 0 1 :=
    intervalIntegrable_const.add (intervalIntegrable_step_lt 0.9 (-99))
  rw [impliedSecondMoment, hcongr,
    integral_add i1 (intervalIntegrable_step_lt 0.7 (-1)),
    integral_add intervalIntegrable_const (intervalIntegrable_step_lt 0.9 (-99)),
    intervalIntegral.integral_const,
    integral_step_lt 0.9 (-99) (by norm_num) (by norm_num),
    integral_step_lt 0.7 (-1) (by norm_num) (by norm_num)]
  norm_num

theorem SkewedDiscrete_impliedStd :
    impliedStd SkewedDiscrete = Real.sqrt 8.76 := by
  rw [impliedStd, SkewedDiscrete_impliedMean, SkewedDiscrete_impliedSecondMoment]
  norm_num

/-- C1: for every registered distribution the declared `mean` and `std`
fields equal the first moment and standard deviation of the law implied by
its sampling function; in particular the Skewed Discrete declared mean equals
`0.7·0 + 0.2·1 + 0.1·10 = 1.2` and its declared std equals
`sqrt(0.7·0 + 0.2·1 + 0.1·100 − 1.2²) = sqrt(8.76)` exactly. -/
theorem declared_moments_match_samplers :
    (Uniform.mean = impliedMean Uniform ∧ Uniform.std = impliedStd Uniform) ∧
    (Exponential.mean = impliedMean Exponential ∧
      Exponential.std = impliedStd Exponential) ∧
    (Bernoulli.mean = impliedMean Bernoulli ∧
      Bernoulli.std = impliedStd Bernoulli) ∧
    (SkewedDiscrete.mean = impliedMean SkewedDiscrete ∧
      SkewedDiscrete.std = impliedStd SkewedDiscrete) ∧
    SkewedDiscrete.mean = 0.7 * 0 + 0.2 * 1 + 0.1 * 10 ∧
    SkewedDiscrete.mean = 1.2 ∧
    SkewedDiscrete.std = Real.sqrt 8.76 ∧
    Real.sqrt 8.76 = Real.sqrt (0.7 * 0 + 0.2 * 1 + 0.1 * 100 - 1.2 ^ 2) := by
  refine ⟨⟨?_, ?_⟩, ⟨?_, ?_⟩, ⟨?_, ?_⟩, ⟨?_, ?_⟩, ?_, ?_, ?_, ?_⟩
  · rw [Uniform_impliedMean]
    rfl
  · rw [Uniform_impliedStd]
    rfl
  · rw [Exponential_impliedMean]
    rfl
  · rw [Exponential_impliedStd]
    rfl
  · rw [Bernoulli_impliedMean]
    rfl
  · rw [Bernoulli_impliedStd]
    rfl
  · rw [SkewedDiscrete_impliedMean]
    show skewed_mean = 1.2
    exact skewed_mean_eq
  · rw [SkewedDiscrete_impliedStd]
    show Real.sqrt skewed_var = Real.sqrt 8.76
    rw [skewed_var_eq]
  · show skewed_mean = 0.7 * 0 + 0.2 * 1 + 0.1 * 10
    rw [skewed_mean_eq]
    norm_num
  · show skewed_mean = 1.2
    exact skewed_mean_eq
  · show Real.sqrt skewed_var = Real.sqrt 8.76
    rw [skewed_var_eq]
  · norm_num

end CLT
